import Mathlib

/-!
Shallow embedding of the agentic-content-scout control plane:
the message trimmer (`agents/base.py`), the topic-store listing
(`tools/topic_tools.py`), the Content Scout four-stage pipeline
(`agents/content_scout.py`), the handoff tools
(`tools/handoff_tools.py`) and the web-search tool
(`tools/tavily_tools.py`).  Python strings are modelled as Lean
`String`s (with helpers on `List Char` so that everything reduces in
the kernel); Python `None`-able fields are `Option`s; code that can
raise returns `Except`.
-/

/-- Python-style check that `pat` is a prefix of `l` (char by char). -/
def startsWithChars : List Char → List Char → Bool
  | [], _ => true
  | _ :: _, [] => false
  | a :: as, b :: bs => a == b && startsWithChars as bs

/-- Python `needle in hay` on strings: `needle` occurs contiguously in `hay`. -/
def hasSubChars : List Char → List Char → Bool
  | hay, [] => startsWithChars [] hay
  | [], _ :: _ => false
  | c :: t, needle => startsWithChars needle (c :: t) || hasSubChars t needle

/-- Split `hay` at the first occurrence of `pat`, returning the part before
the occurrence and the part after it (models `str.find` / regex scanning). -/
def splitOnSub (pat : List Char) : List Char → Option (List Char × List Char)
  | [] => if pat.isEmpty then some ([], []) else none
  | c :: t =>
    if startsWithChars pat (c :: t) then some ([], (c :: t).drop pat.length)
    else (splitOnSub pat t).map (fun p => (c :: p.1, p.2))

/-- Strip leading and trailing whitespace (Python `str.strip` / regex `\s*`). -/
def trimChars (l : List Char) : List Char :=
  ((l.dropWhile Char.isWhitespace).reverse.dropWhile Char.isWhitespace).reverse

/-- Lexicographic comparison of character lists by code point, the order
Python's `sorted` uses on strings. -/
def charListLe : List Char → List Char → Bool
  | [], _ => true
  | _ :: _, [] => false
  | a :: as, b :: bs =>
    if a.val < b.val then true
    else if b.val < a.val then false
    else charListLe as bs

/-- String comparison used when sorting topic slugs. -/
def slugLe (a b : String) : Bool := charListLe a.data b.data

/-- Insert into an ascending list, keeping it ascending. -/
def insertSorted (x : String) : List String → List String
  | [] => [x]
  | y :: ys => if slugLe x y then x :: y :: ys else y :: insertSorted x ys

/-- Ascending sort of a list of strings; models Python `sorted(...)`. -/
def sortStrings (l : List String) : List String := l.foldr insertSorted []

/-- Python `str.lower().strip()` as applied to the user's resume reply in
`_resolve_topic` (`content_scout.py` line 89). -/
def pyLowerStrip (s : String) : String :=
  String.mk (trimChars (s.data.map Char.toLower))

/-! ### Message trimmer — `agents/base.py`, `trim_messages` -/

/-- `MAX_MESSAGES` from `agents/base.py`. -/
def MAX_MESSAGES : Nat := 16

/-- `trim_messages` from `agents/base.py`: returns `none` ("no changes
needed") when the sequence is within the cap, otherwise the replacement
payload `messages[-MAX_MESSAGES:]` (the last 16 entries).  It is a pure
function of the in-flight sequence: the stored history is untouched. -/
def trim_messages {α : Type} (messages : List α) : Option (List α) :=
  if messages.length ≤ MAX_MESSAGES then none
  else some (messages.drop (messages.length - MAX_MESSAGES))

/-- The message payload actually presented to the model after the
`before_model` middleware ran: the replacement if one was returned,
otherwise the unchanged sequence. -/
def trimmedPayload {α : Type} (messages : List α) : List α :=
  match trim_messages messages with
  | none => messages
  | some m => m

/-! ### Topic store listing — `tools/topic_tools.py`, `get_topic_slugs`
(and the identical `_get_available_topics` in `content_scout.py`) -/

/-- One entry of the topics directory: its name, whether it is a
sub-directory, and the file names it contains (meaningful when it is). -/
structure DirEntry where
  name : String
  isDir : Bool
  files : List String
deriving DecidableEq

/-- `get_topic_slugs` from `tools/topic_tools.py`: collect the names of the
directory entries that are directories and contain a `preferences.md`
file, then sort them. -/
def get_topic_slugs (entries : List DirEntry) : List String :=
  sortStrings
    ((entries.filter (fun e => e.isDir && e.files.contains "preferences.md")).map
      DirEntry.name)

/-! ### Stage 1: resolve topic — `content_scout.py`, `_resolve_topic` -/

/-- Structured output of the resolution model call (`TopicResolution` in
`content_scout.py`); the model itself is an external collaborator, so the
value is an input of the embedded stage. -/
structure TopicResolution where
  slug : Option String
  confidence : String
  reason : String
deriving DecidableEq

/-- Python truthiness of the `result.slug` field (`None` and `""` falsy). -/
def truthySlug : Option String → Bool
  | some s => s != ""
  | none => false

/-- The membership test `result.slug in available_topics` (`None` matches
nothing). -/
def slugKnown (slug : Option String) (available : List String) : Bool :=
  match slug with
  | some s => available.contains s
  | none => false

/-- The per-topic test of `content_scout.py` line 95:
`response_lower == topic or response_lower in topic or topic in response_lower`. -/
def matchesSlug (r t : String) : Bool :=
  r == t || hasSubChars t.data r.data || hasSubChars r.data t.data

/-- Lines 88–99 of `content_scout.py`: interpretation of the user's reply at
the clarification suspension point.  `guessed` is `result.slug` from the
model call, `available` the (sorted) slug list. -/
def resolve_topic_resume (guessed : Option String) (available : List String)
    (response : String) : Option String :=
  let r := pyLowerStrip response
  if (r == "yes" || r == "y") && truthySlug guessed then guessed
  else available.find? (fun t => matchesSlug r t)

/-- Outcome of a pipeline stage that may suspend (`langgraph.types.interrupt`):
either a value, or a question together with the continuation that receives
the user's resume text. -/
inductive StageOutcome (α : Type) where
  | done (value : α)
  | suspended (question : String) (resume : String → α)

/-- Resuming a stage outcome with a text: `some` of the continuation's value
when the stage was suspended, `none` when there was nothing to resume. -/
def resumeValue {α : Type} : StageOutcome α → String → Option α
  | .done _, _ => none
  | .suspended _ k, text => some (k text)

/-- `_resolve_topic` from `content_scout.py` (lines 47–99), with the model
call abstracted as the `llm` input: with no topics at all it suspends and
its continuation ignores the reply, returning a null slug; with a
high-confidence known slug it finishes; otherwise it suspends with a
confirmation or list question and resumes through `resolve_topic_resume`. -/
def resolve_topic (available : List String) (llm : TopicResolution) :
    StageOutcome (Option String) :=
  if available.isEmpty then
    .suspended "No topics found. Please create a topic first using the topic manager."
      (fun _ => none)
  else if llm.confidence == "high" && slugKnown llm.slug available then
    .done llm.slug
  else
    let question :=
      if truthySlug llm.slug && slugKnown llm.slug available then
        "Did you mean the '" ++ llm.slug.getD "" ++
          "' topic? (yes/no, or type a different topic name)"
      else
        "Which topic? Available: " ++ String.intercalate ", " available
    .suspended question (fun response => resolve_topic_resume llm.slug available response)

/-! ### Stage 2: load context — `content_scout.py`, `_load_context` -/

/-- An entry of a topic's `links.yaml`, following the store schema
`{title, url, reason, date}`. -/
structure LinkRecord where
  title : String
  url : String
  reason : String
  date : String
deriving DecidableEq

/-- The filesystem-backed topic store as `_load_context` and
`_save_articles` see it: the content of `<slug>/preferences.md` when that
file exists, and the parsed content of `<slug>/links.yaml` when that file
exists (an empty file parses to the empty list). -/
structure TopicStore where
  prefs : String → Option String
  links : String → Option (List LinkRecord)

/-- What `_load_context` returns. -/
structure LoadedContext where
  preferences : String
  saved_urls : List String
deriving DecidableEq

/-- The `TypeError` CPython raises for `TOPICS_DIR / topic_slug` when
`topic_slug` is `None` (pathlib rejects `None` path segments). -/
def pathTypeError : String :=
  "TypeError: argument should be a str or an os.PathLike object, not NoneType"

/-- `_load_context` from `content_scout.py` (lines 136–155).  The stored
`topic_slug` is `None` exactly when resolution failed; in that case the
very first path join `TOPICS_DIR / topic_slug` raises `TypeError`, which
the embedding surfaces as an `Except.error`.  With a string slug it reads
the preferences (fixed default if absent) and the saved URL list (empty if
no link file). -/
def load_context (store : TopicStore) (topic_slug : Option String) :
    Except String LoadedContext :=
  match topic_slug with
  | none => .error pathTypeError
  | some slug =>
    .ok { preferences := (store.prefs slug).getD "No preferences found.",
          saved_urls := ((store.links slug).getD []).map LinkRecord.url }

/-! ### Stage 3: search & evaluate, JSON extraction — `content_scout.py`,
`_search_evaluate` lines 188–217 -/

/-- A parsed JSON value as `json.loads` produces it.  Numerals keep their
raw lexeme: their numeric value plays no role in the pipeline. -/
inductive Json where
  | null
  | bool (b : Bool)
  | num (raw : List Char)
  | str (s : List Char)
  | arr (elems : List Json)
  | obj (fields : List (List Char × Json))

/-- Skip JSON insignificant whitespace. -/
def skipWs (l : List Char) : List Char := l.dropWhile Char.isWhitespace

/-- Translate a JSON string escape character. -/
def escChar (e : Char) : Option Char :=
  if e == '"' then some '"'
  else if e == '\\' then some '\\'
  else if e == '/' then some '/'
  else if e == 'n' then some '\n'
  else if e == 't' then some '\t'
  else if e == 'r' then some '\r'
  else if e == 'b' then some (Char.ofNat 8)
  else if e == 'f' then some (Char.ofNat 12)
  else none

/-- Parse the body of a JSON string after the opening quote, up to and
including the closing quote; returns the decoded characters and the rest. -/
def parseStringBody : List Char → Option (List Char × List Char)
  | [] => none
  | '"' :: rest => some ([], rest)
  | '\\' :: [] => none
  | '\\' :: e :: rest2 =>
    match escChar e with
    | none => none
    | some ch => (parseStringBody rest2).map (fun p => (ch :: p.1, p.2))
  | c :: rest => (parseStringBody rest).map (fun p => (c :: p.1, p.2))

/-- Take the maximal run of decimal digits. -/
def spanDigits (l : List Char) : List Char × List Char :=
  l.span (fun c => c.isDigit)

/-- Parse an optional fraction part of a JSON numeral. -/
def parseFracPart : List Char → Option (List Char × List Char)
  | '.' :: t =>
    match spanDigits t with
    | ([], _) => none
    | (ds, rest) => some ('.' :: ds, rest)
  | l => some ([], l)

/-- Parse an optional exponent part of a JSON numeral. -/
def parseExpPart : List Char → Option (List Char × List Char)
  | [] => some ([], [])
  | c :: t =>
    if c == 'e' || c == 'E' then
      let (sgn, t2) :=
        match t with
        | '+' :: u => (['+'], u)
        | '-' :: u => (['-'], u)
        | _ => (([] : List Char), t)
      match spanDigits t2 with
      | ([], _) => none
      | (ds, rest) => some (c :: (sgn ++ ds), rest)
    else some ([], c :: t)

/-- Parse a JSON numeral, returning its raw lexeme and the rest. -/
def parseNumber (l : List Char) : Option (List Char × List Char) :=
  let (sgn, l1) :=
    match l with
    | '-' :: t => (['-'], t)
    | _ => (([] : List Char), l)
  match spanDigits l1 with
  | ([], _) => none
  | (ds, rest) =>
    match parseFracPart rest with
    | none => none
    | some (fr, rest2) =>
      match parseExpPart rest2 with
      | none => none
      | some (ex, rest3) => some (sgn ++ ds ++ fr ++ ex, rest3)

/-- Parser modes: a single value, the elements of an array after `[`, or
the members of an object after `{`. -/
inductive JMode where
  | value
  | elements
  | members

/-- Fuel-driven recursive-descent JSON parser (the model of the stdlib
parser behind `json.loads`). -/
def parseP : Nat → JMode → List Char → Option (Json × List Char)
  | 0, _, _ => none
  | fuel + 1, JMode.value, l =>
    let l := skipWs l
    if startsWithChars "null".data l then some (.null, l.drop 4)
    else if startsWithChars "true".data l then some (.bool true, l.drop 4)
    else if startsWithChars "false".data l then some (.bool false, l.drop 5)
    else
      match l with
      | '"' :: rest => (parseStringBody rest).map (fun p => (Json.str p.1, p.2))
      | '[' :: rest =>
        (match skipWs rest with
         | ']' :: r2 => some (.arr [], r2)
         | r => parseP fuel JMode.elements r)
      | '{' :: rest =>
        (match skipWs rest with
         | '}' :: r2 => some (.obj [], r2)
         | r => parseP fuel JMode.members r)
      | _ =>
        match parseNumber l with
        | some (raw, rest) => some (.num raw, rest)
        | none => none
  | fuel + 1, JMode.elements, l =>
    match parseP fuel JMode.value l with
    | none => none
    | some (v, rest) =>
      match skipWs rest with
      | ',' :: r2 =>
        (match parseP fuel JMode.elements r2 with
         | some (Json.arr es, r3) => some (.arr (v :: es), r3)
         | _ => none)
      | ']' :: r2 => some (.arr [v], r2)
      | _ => none
  | fuel + 1, JMode.members, l =>
    match skipWs l with
    | '"' :: rest =>
      (match parseStringBody rest with
       | none => none
       | some (key, rest2) =>
         match skipWs rest2 with
         | ':' :: rest3 =>
           (match parseP fuel JMode.value rest3 with
            | none => none
            | some (v, rest4) =>
              match skipWs rest4 with
              | ',' :: r5 =>
                (match parseP fuel JMode.members r5 with
                 | some (Json.obj fs, r6) => some (.obj ((key, v) :: fs), r6)
                 | _ => none)
              | '}' :: r5 => some (.obj [(key, v)], r5)
              | _ => none)
         | _ => none)
    | _ => none

/-- Model of `json.loads`: parse one value and require only whitespace to
remain; `none` corresponds to `json.JSONDecodeError`. -/
def json_loads (l : List Char) : Option Json :=
  match parseP (2 * l.length + 2) JMode.value l with
  | some (v, rest) => if (skipWs rest).isEmpty then some v else none
  | none => none

/-- The regex scan ```re.search(r"```json\s*(.*?)\s*```", content,
re.DOTALL)``` of `content_scout.py` line 199: the text strictly between
the first ` ```json ` tag and the next ` ``` ` fence, stripped of
surrounding whitespace; `none` when no complete fenced block exists. -/
def fencedJsonBlock (content : List Char) : Option (List Char) :=
  match splitOnSub "```json".data content with
  | none => none
  | some (_, afterTag) =>
    match splitOnSub "```".data afterTag with
    | none => none
    | some (body, _) => some (trimChars body)

/-- The text `_search_evaluate` hands to `json.loads`: the fenced block
when one is present, otherwise the whole reply. -/
def relevantParse (content : List Char) : Option Json :=
  match fencedJsonBlock content with
  | some block => json_loads block
  | none => json_loads content

/-- Python `dict.get(key, default)` on the object built by `json.loads`
(duplicate keys: the last occurrence wins, as in a Python dict literal). -/
def dictGet (fields : List (List Char × Json)) (key : List Char)
    (default : Json) : Json :=
  match fields.reverse.find? (fun p => p.1 == key) with
  | some p => p.2
  | none => default

/-- The extraction step of `_search_evaluate` (lines 195–211) applied to
the final assistant reply: parse the fenced block if present, else the
whole reply; `json.JSONDecodeError` is caught and degrades to the reply
truncated to 500 characters with no recommendations; but `data.get(...)`
on a successfully parsed non-object value raises `AttributeError`, which
the `except json.JSONDecodeError` clause does not catch. -/
def search_evaluate_extract (content : List Char) : Except String (Json × Json) :=
  match relevantParse content with
  | none => .ok (Json.arr [], Json.str (content.take 500))
  | some (Json.obj fields) =>
    .ok (dictGet fields "articles".data (Json.arr []),
         dictGet fields "summary".data (Json.str "Found articles.".data))
  | some _ => .error "AttributeError: object has no attribute get"

/-- Whether the embedded computation models a raised Python exception. -/
def isRaise {α : Type} : Except String α → Bool
  | .error _ => true
  | .ok _ => false

/-! ### Stage 4: save articles — `content_scout.py`, `_save_articles`
lines 220–266 -/

/-- A recommended article as the dictionary `{url, title, reason}` coming
out of the extraction step; every field can be missing. -/
structure Article where
  url : Option String
  title : Option String
  reason : Option String
deriving DecidableEq

/-- `article.get("url", "")` from line 242. -/
def urlOrEmpty (a : Article) : String := a.url.getD ""

/-- The save condition of line 243: `url and url not in existing_urls` —
the URL is non-empty and not among the URLs loaded from the file at the
start of the stage. -/
def isNewUrl (existing_urls : List String) (url : String) : Bool :=
  url != "" && !(existing_urls.contains url)

/-- The record appended at lines 244–249, stamped with today's date. -/
def toLink (today : String) (a : Article) : LinkRecord :=
  { title := a.title.getD "Untitled"
    url := a.url.getD ""
    reason := a.reason.getD ""
    date := today }

/-- The `for article in recommended` loop of lines 241–250: the records
appended to the loaded list, in order.  `existing_urls` is the set
computed once at line 237 — the loop never extends it. -/
def addArticles (existing_urls : List String) (today : String) :
    List Article → List LinkRecord
  | [] => []
  | a :: rest =>
    if isNewUrl existing_urls (urlOrEmpty a) then
      toLink today a :: addArticles existing_urls today rest
    else addArticles existing_urls today rest

/-- The membership test `a.get("url") not in existing_urls` of the summary
comprehension at line 260: the raw (possibly missing) url field compared
against the string set — a missing url (`None`) is never a member. -/
def optUrlInSet (u : Option String) (existing_urls : List String) : Bool :=
  match u with
  | some s => existing_urls.contains s
  | none => false

/-- The summary comprehension of line 260 before its `[:saved_count]`
slice: the raw url fields of the recommendations whose url field is not in
`existing_urls`. -/
def summaryPool (existing_urls : List String) (recommended : List Article) :
    List (Option String) :=
  (recommended.filter (fun a => !(optUrlInSet a.url existing_urls))).map Article.url

/-- Python `f"{x}"` on an optional string: `None` renders as `None`. -/
def pyShow : Option String → String
  | some s => s
  | none => "None"

/-- One line of the saved-URLs listing (the literal in the source carries
mojibake bytes for the arrow, reproduced here as `â†’`). -/
def arrowLine (u : Option String) : String := "  â†’ " ++ pyShow u

/-- `_save_articles`: first component is the file content written back
(`none` when the stage performs no write), second the summary returned.
Inputs: the loaded `links.yaml` content (`existing`), the recommendation
list, `state.get("summary")`, the topic slug and today's date. -/
def save_articles (existing : List LinkRecord) (recommended : List Article)
    (summary : Option String) (topic_slug today : String) :
    Option (List LinkRecord) × String :=
  if recommended.isEmpty then
    (none, summary.getD "No articles found to save.")
  else
    let existing_urls := existing.map LinkRecord.url
    let appended := addArticles existing_urls today recommended
    let saved_count := appended.length
    let written := if saved_count > 0 then some (existing ++ appended) else none
    let original_summary := summary.getD ""
    let newSummary :=
      if saved_count > 0 then
        let saved_urls := (summaryPool existing_urls recommended).take saved_count
        let urls_text := String.intercalate "\n" (saved_urls.map arrowLine)
        original_summary ++ "\n\nSaved to " ++ topic_slug ++ ":\n" ++ urls_text
      else
        original_summary ++ "\n\nNo new articles to save (duplicates filtered)."
    (written, newSummary)

/-! ### Handoff protocol — `tools/handoff_tools.py` and
`ContentScout.invoke` (`content_scout.py` lines 305–332).  The spec's
worker names map onto the code's: router = `supervisor`,
profile manager = `topic_manager`, content scout = `content_scout`. -/

/-- A conversation message (the kinds the handoff tools distinguish). -/
inductive Msg where
  | human (content : String)
  | ai (content : String)
  | tool (content : String) (tool_call_id : String)
deriving DecidableEq

/-- The `isinstance(msg, AIMessage)` test. -/
def isAi : Msg → Bool
  | .ai _ => true
  | _ => false

/-- `next((msg for msg in reversed(runtime.state["messages"]) if
isinstance(msg, AIMessage)), None)` — the most recent assistant message. -/
def lastAiMessage (messages : List Msg) : Option Msg :=
  messages.reverse.find? isAi

/-- The state fields a handoff updates: the active worker, the messages to
append, and the carried context (a small string-keyed mapping). -/
structure StateUpdate where
  active_agent : String
  messages : List Msg
  topic_context : List (String × String)
deriving DecidableEq

/-- A `langgraph` `Command(goto=..., update=..., graph=Command.PARENT)`. -/
structure HandoffCommand where
  goto : String
  update : StateUpdate
deriving DecidableEq

/-- `[last_ai_message, transfer_message] if last_ai_message else
[transfer_message]` — the transfer note always comes last. -/
def withTransfer (last : Option Msg) (transfer : Msg) : List Msg :=
  match last with
  | some m => [m, transfer]
  | none => [transfer]

/-- `handoff_to_topics` from `tools/handoff_tools.py`: router hands off to
the profile manager. -/
def handoff_to_topics (task : String) (stateMessages : List Msg)
    (tool_call_id : String) : HandoffCommand :=
  { goto := "agent"
    update :=
      { active_agent := "topic_manager"
        messages := withTransfer (lastAiMessage stateMessages)
          (Msg.tool ("Transferring to TopicManager: " ++ task) tool_call_id)
        topic_context := [("task", task)] } }

/-- `handoff_to_scout` from `tools/handoff_tools.py`: router hands off to
the content scout with task and topic slug. -/
def handoff_to_scout (task topic_slug : String) (stateMessages : List Msg)
    (tool_call_id : String) : HandoffCommand :=
  { goto := "agent"
    update :=
      { active_agent := "content_scout"
        messages := withTransfer (lastAiMessage stateMessages)
          (Msg.tool ("Transferring to ContentScout: " ++ task ++
            " (topic: " ++ topic_slug ++ ")") tool_call_id)
        topic_context := [("task", task), ("topic_slug", topic_slug)] } }

/-- `handoff_to_supervisor` from `tools/handoff_tools.py`: a specialist
hands control back to the router, clearing the context. -/
def handoff_to_supervisor (summary : String) (stateMessages : List Msg)
    (tool_call_id : String) : HandoffCommand :=
  { goto := "agent"
    update :=
      { active_agent := "supervisor"
        messages := withTransfer (lastAiMessage stateMessages)
          (Msg.tool ("TopicManager completed: " ++ summary) tool_call_id)
        topic_context := [] } }

/-- The tail of `ContentScout.invoke` (lines 326–332): the scout returns
control to the router with its summary as a completion note and an empty
context. -/
def content_scout_handback (summary : String) : StateUpdate :=
  { active_agent := "supervisor"
    messages := [Msg.ai summary]
    topic_context := [] }

/-- The three worker names of the system. -/
def workerNames : List String := ["supervisor", "topic_manager", "content_scout"]

/-! ### Web search tool — `tools/tavily_tools.py`, `tavily_search` -/

/-- One raw result of the external search service (`r.get("url")`,
`r.get("title", "No title")`, `r.get("content", "")`; a missing content
field is modelled as the empty string). -/
structure SearchResult where
  url : Option String
  title : Option String
  content : String
deriving DecidableEq

/-- One entry of the formatted output: either a result block (with the URL
it mentions) or the inline error line for a failed query. -/
inductive OutLine where
  | result (title : String) (domain : String) (url : String) (snippet : String)
  | failure (query : String) (err : String)
deriving DecidableEq

/-- The inner `for r in resp.get("results", [])` loop: keep a result only
when its URL is truthy and unseen, extending the seen set; returns the
produced lines and the seen set afterwards. -/
def processResults (netloc : String → String) :
    List String → List SearchResult → List OutLine × List String
  | seen, [] => ([], seen)
  | seen, r :: rest =>
    match r.url with
    | some url =>
      if url != "" && !(seen.contains url) then
        let p := processResults netloc (url :: seen) rest
        (OutLine.result (r.title.getD "No title") (netloc url) url
            (String.mk (r.content.data.take 300)) :: p.1,
          p.2)
      else processResults netloc seen rest
    | none => processResults netloc seen rest

/-- The outer `for query in queries` loop of `tavily_search`: a failing
query (the `except` branch) contributes one inline error line and leaves
the seen set unchanged; a successful one contributes its fresh results. -/
def tavily_lines (netloc : String → String)
    (search : String → Except String (List SearchResult)) :
    List String → List String → List OutLine
  | _, [] => []
  | seen, q :: qs =>
    match search q with
    | .error e => OutLine.failure q e :: tavily_lines netloc search seen qs
    | .ok rs =>
      (processResults netloc seen rs).1 ++
        tavily_lines netloc search (processResults netloc seen rs).2 qs

/-- Rendering of one output entry as in the source's f-strings. -/
def renderLine : OutLine → String
  | .result title domain url snippet =>
    "**" ++ title ++ "**\nSource: " ++ domain ++ "\nURL: " ++ url ++ "\n" ++
      snippet ++ "..."
  | .failure q e => "Search failed for '" ++ q ++ "': " ++ e

/-- `tavily_search` from `tools/tavily_tools.py`, with the external client
abstracted as `search` and `urlparse(...).netloc` as `netloc`. -/
def tavily_search (netloc : String → String)
    (search : String → Except String (List SearchResult))
    (apiKeySet : Bool) (queries : List String) : String :=
  if !apiKeySet then "Error: TAVILY_API_KEY environment variable is not set"
  else
    let lines := tavily_lines netloc search [] queries
    if lines.isEmpty then "No results found."
    else
      "Found " ++ toString lines.length ++ " results:\n\n" ++
        String.intercalate "\n\n" (lines.map renderLine)

/-- The URLs mentioned by the result entries of an output. -/
def resultUrls (lines : List OutLine) : List String :=
  lines.filterMap (fun l =>
    match l with
    | .result _ _ u _ => some u
    | .failure _ _ => none)

/-! ### Helper lemmas -/

theorem contains_iff (l : List String) (u : String) :
    l.contains u = true ↔ u ∈ l :=
  List.elem_iff

theorem isNewUrl_iff (E : List String) (u : String) :
    isNewUrl E u = true ↔ u ≠ "" ∧ u ∉ E := by
  unfold isNewUrl
  rw [Bool.and_eq_true, bne_iff_ne, Bool.not_eq_true']
  constructor
  · rintro ⟨h1, h2⟩
    refine ⟨h1, fun hmem => ?_⟩
    rw [(contains_iff E u).mpr hmem] at h2
    exact Bool.noConfusion h2
  · rintro ⟨h1, h2⟩
    refine ⟨h1, ?_⟩
    cases h : E.contains u with
    | false => rfl
    | true => exact absurd ((contains_iff E u).mp h) h2

theorem addArticles_eq_filterMap (E : List String) (today : String)
    (rec : List Article) :
    addArticles E today rec =
      (rec.filter (fun a => isNewUrl E (urlOrEmpty a))).map (toLink today) := by
  induction rec with
  | nil => rfl
  | cons a rest ih =>
    simp only [addArticles, List.filter_cons]
    by_cases h : isNewUrl E (urlOrEmpty a) = true
    · simp [h, ih]
    · simp [h, ih]

theorem addArticles_map_url (E : List String) (today : String)
    (rec : List Article) :
    (addArticles E today rec).map LinkRecord.url =
      (rec.map urlOrEmpty).filter (fun u => isNewUrl E u) := by
  induction rec with
  | nil => rfl
  | cons a rest ih =>
    simp only [addArticles, List.map_cons, List.filter_cons]
    by_cases h : isNewUrl E (urlOrEmpty a) = true
    · simp only [urlOrEmpty] at h
      simp [h, ih, toLink, urlOrEmpty]
    · simp only [urlOrEmpty] at h
      simp [h, ih, urlOrEmpty]

theorem addArticles_nil_of_all_stale (E : List String) (today : String)
    (rec : List Article) (h : ∀ a ∈ rec, isNewUrl E (urlOrEmpty a) = false) :
    addArticles E today rec = [] := by
  induction rec with
  | nil => rfl
  | cons a rest ih =>
    have ha := h a (List.mem_cons_self a rest)
    simp only [addArticles, ha, Bool.false_eq_true, if_false]
    exact ih (fun x hx => h x (List.mem_cons_of_mem a hx))

theorem mem_addArticles_url (E : List String) (today : String)
    (rec : List Article) (a : Article) (ha : a ∈ rec)
    (hnew : isNewUrl E (urlOrEmpty a) = true) :
    urlOrEmpty a ∈ (addArticles E today rec).map LinkRecord.url := by
  rw [addArticles_map_url]
  exact List.mem_filter.mpr ⟨List.mem_map_of_mem urlOrEmpty ha, hnew⟩

theorem isNewUrl_false_of_mem (E : List String) (u : String) (h : u ∈ E) :
    isNewUrl E u = false := by
  unfold isNewUrl
  rw [(contains_iff E u).mpr h]
  simp

theorem addArticles_length_indep (E : List String) (t1 t2 : String)
    (rec : List Article) :
    (addArticles E t1 rec).length = (addArticles E t2 rec).length := by
  have h : ∀ t, (addArticles E t rec).length =
      ((rec.map urlOrEmpty).filter (fun u => isNewUrl E u)).length := by
    intro t
    rw [← List.length_map (addArticles E t rec) LinkRecord.url, addArticles_map_url]
  rw [h t1, h t2]

theorem resultUrls_cons_result (t d u s : String) (ls : List OutLine) :
    resultUrls (OutLine.result t d u s :: ls) = u :: resultUrls ls := rfl

theorem resultUrls_cons_failure (q e : String) (ls : List OutLine) :
    resultUrls (OutLine.failure q e :: ls) = resultUrls ls := rfl

theorem resultUrls_append (l1 l2 : List OutLine) :
    resultUrls (l1 ++ l2) = resultUrls l1 ++ resultUrls l2 :=
  List.filterMap_append l1 l2 _

theorem processResults_invariant (netloc : String → String) :
    ∀ (rs : List SearchResult) (seen : List String),
      (resultUrls (processResults netloc seen rs).1).Nodup ∧
      (∀ u ∈ resultUrls (processResults netloc seen rs).1, u ∉ seen) ∧
      (∀ u, u ∈ (processResults netloc seen rs).2 ↔
        u ∈ seen ∨ u ∈ resultUrls (processResults netloc seen rs).1) := by
  intro rs
  induction rs with
  | nil =>
    intro seen
    refine ⟨by simp [processResults, resultUrls], by simp [processResults, resultUrls], ?_⟩
    intro u
    simp [processResults, resultUrls]
  | cons r rest ih =>
    intro seen
    cases hu : r.url with
    | none =>
      simpa [processResults, hu] using ih seen
    | some url =>
      by_cases hc : (url != "" && !(seen.contains url)) = true
      · have hfresh : url ∉ seen := by
          have h2 := ((Bool.and_eq_true _ _).mp hc).2
          rw [Bool.not_eq_true'] at h2
          intro hmem
          rw [(contains_iff seen url).mpr hmem] at h2
          exact Bool.noConfusion h2
        obtain ⟨ihnd, ihfresh, ihseen⟩ := ih (url :: seen)
        have hshape : processResults netloc seen (r :: rest) =
            (OutLine.result (r.title.getD "No title") (netloc url) url
                (String.mk (r.content.data.take 300)) ::
              (processResults netloc (url :: seen) rest).1,
             (processResults netloc (url :: seen) rest).2) := by
          simp only [processResults, hu]
          rw [if_pos hc]
        rw [hshape]
        refine ⟨?_, ?_, ?_⟩
        · rw [resultUrls_cons_result, List.nodup_cons]
          exact ⟨fun hmem => ihfresh url hmem (List.mem_cons_self url seen), ihnd⟩
        · rw [resultUrls_cons_result]
          intro u hu2 hseen
          rcases List.mem_cons.mp hu2 with h1 | h2
          · exact hfresh (h1 ▸ hseen)
          · exact ihfresh u h2 (List.mem_cons_of_mem url hseen)
        · intro u
          rw [resultUrls_cons_result, ihseen u, List.mem_cons, List.mem_cons]
          tauto
      · have hshape : processResults netloc seen (r :: rest) =
            processResults netloc seen rest := by
          simp only [processResults, hu]
          rw [if_neg hc]
        rw [hshape]
        exact ih seen

theorem tavily_lines_fresh (netloc : String → String)
    (search : String → Except String (List SearchResult)) :
    ∀ (queries : List String) (seen : List String),
      (resultUrls (tavily_lines netloc search seen queries)).Nodup ∧
      ∀ u ∈ resultUrls (tavily_lines netloc search seen queries), u ∉ seen := by
  intro queries
  induction queries with
  | nil =>
    intro seen
    exact ⟨by simp [tavily_lines, resultUrls], by simp [tavily_lines, resultUrls]⟩
  | cons q qs ih =>
    intro seen
    cases hs : search q with
    | error e =>
      have hshape : tavily_lines netloc search seen (q :: qs) =
          OutLine.failure q e :: tavily_lines netloc search seen qs := by
        simp [tavily_lines, hs]
      rw [hshape, resultUrls_cons_failure]
      exact ih seen
    | ok rs =>
      have hshape : tavily_lines netloc search seen (q :: qs) =
          (processResults netloc seen rs).1 ++
            tavily_lines netloc search (processResults netloc seen rs).2 qs := by
        simp [tavily_lines, hs]
      obtain ⟨pnd, pfresh, pseen⟩ := processResults_invariant netloc rs seen
      obtain ⟨ihnd, ihfresh⟩ := ih (processResults netloc seen rs).2
      rw [hshape, resultUrls_append]
      constructor
      · rw [List.nodup_append]
        refine ⟨pnd, ihnd, ?_⟩
        rw [List.disjoint_left]
        intro u hu1 hu2
        exact ihfresh u hu2 ((pseen u).mpr (Or.inr hu1))
      · intro u hu hseen
        rcases List.mem_append.mp hu with h1 | h2
        · exact pfresh u h1 hseen
        · exact ihfresh u h2 ((pseen u).mpr (Or.inl hseen))

theorem withTransfer_getLast (last : Option Msg) (t : Msg) :
    (withTransfer last t).getLast? = some t := by
  cases last with
  | none => rfl
  | some m => rfl

theorem save_articles_unfold (existing : List LinkRecord) (rec : List Article)
    (summary : Option String) (slug today : String) (hne : rec ≠ []) :
    save_articles existing rec summary slug today =
      (if (addArticles (existing.map LinkRecord.url) today rec).length > 0
       then some (existing ++ addArticles (existing.map LinkRecord.url) today rec)
       else none,
       if (addArticles (existing.map LinkRecord.url) today rec).length > 0
       then summary.getD "" ++ "\n\nSaved to " ++ slug ++ ":\n" ++
         String.intercalate "\n"
           (((summaryPool (existing.map LinkRecord.url) rec).take
               (addArticles (existing.map LinkRecord.url) today rec).length).map
             arrowLine)
       else summary.getD "" ++ "\n\nNo new articles to save (duplicates filtered).") := by
  cases rec with
  | nil => exact absurd rfl hne
  | cons a rest => rfl

theorem find?_split {α : Type} (p : α → Bool) (pre : List α) (t : α)
    (post : List α) (hpre : ∀ x ∈ pre, p x = false) (ht : p t = true) :
    (pre ++ t :: post).find? p = some t := by
  induction pre with
  | nil => simp [List.find?_cons_of_pos, ht]
  | cons a as ih =>
    have ha : p a = false := hpre a (List.mem_cons_self a as)
    rw [List.cons_append, List.find?_cons_of_neg _ (by simp [ha])]
    exact ih (fun x hx => hpre x (List.mem_cons_of_mem a hx))

theorem insertSorted_mem (x y : String) (l : List String) :
    y ∈ insertSorted x l ↔ y = x ∨ y ∈ l := by
  induction l with
  | nil => simp [insertSorted]
  | cons z zs ih =>
    by_cases h : slugLe x z = true
    · simp [insertSorted, h]
    · simp only [insertSorted, h, if_neg, List.mem_cons, ih, Bool.not_eq_true]
      tauto

theorem sortStrings_mem (y : String) (l : List String) :
    y ∈ sortStrings l ↔ y ∈ l := by
  induction l with
  | nil => simp [sortStrings]
  | cons z zs ih =>
    simp only [sortStrings, List.foldr_cons, insertSorted_mem, List.mem_cons]
    rw [show List.foldr insertSorted [] zs = sortStrings zs from rfl] at *
    tauto

/-! ### Claim theorems for the trimmer and the store listing -/

/-- C3: for every message sequence of length `L`, the payload presented to
the model has length `min L 16` and equals the last `min L 16` elements in
their original order (`drop (L - 16)`), and the trimmer reports "no
change" exactly when `L ≤ 16`; being a pure function it never mutates the
stored history. -/
theorem trim_messages_spec (α : Type) (messages : List α) :
    (trimmedPayload messages).length = min messages.length 16 ∧
    trimmedPayload messages = messages.drop (messages.length - 16) ∧
    (trim_messages messages = none ↔ messages.length ≤ 16) := by
  by_cases h : messages.length ≤ 16
  · have hz : messages.length - 16 = 0 := Nat.sub_eq_zero_of_le h
    have hnone : trim_messages messages = none := by
      simp [trim_messages, MAX_MESSAGES, h]
    refine ⟨?_, ?_, ?_⟩
    · simp [trimmedPayload, hnone, Nat.min_eq_left h]
    · simp [trimmedPayload, hnone, hz]
    · simp [hnone, h]
  · have hsome : trim_messages messages =
        some (messages.drop (messages.length - 16)) := by
      simp [trim_messages, MAX_MESSAGES, h]
    have hge : 16 ≤ messages.length := Nat.le_of_not_le h
    refine ⟨?_, ?_, ?_⟩
    · simp only [trimmedPayload, hsome, List.length_drop]
      omega
    · simp [trimmedPayload, hsome]
    · simp [hsome, h]

/-- C7: the list of available topic slugs contains a directory name iff
that directory contains a preferences document; a directory lacking
`preferences.md` is never listed, whatever other files it holds.  Stated
for any directory listing whose entry names are distinct (as they are on a
filesystem). -/
theorem get_topic_slugs_mem_iff (entries : List DirEntry) (e : DirEntry)
    (hnodup : (entries.map DirEntry.name).Nodup) (he : e ∈ entries) :
    e.name ∈ get_topic_slugs entries ↔
      e.isDir = true ∧ e.files.contains "preferences.md" = true := by
  unfold get_topic_slugs
  rw [sortStrings_mem]
  constructor
  · intro hmem
    obtain ⟨e', he', hname⟩ := List.mem_map.mp hmem
    obtain ⟨he'mem, hp⟩ := List.mem_filter.mp he'
    have : e' = e :=
      List.inj_on_of_nodup_map hnodup he'mem he hname
    subst this
    simpa using hp
  · intro ⟨h1, h2⟩
    exact List.mem_map.mpr
      ⟨e, List.mem_filter.mpr ⟨he, by rw [h1, h2]; rfl⟩, rfl⟩

/-- Witness for C7 at a concrete store: the directory `beta` contains only
a stray `links.yaml`, so it is not listed among the topic slugs. -/
theorem get_topic_slugs_mem_iff_witness :
    ((⟨"beta", true, ["links.yaml"]⟩ : DirEntry).name ∈
        get_topic_slugs
          [⟨"alpha", true, ["preferences.md"]⟩,
           ⟨"beta", true, ["links.yaml"]⟩,
           ⟨"notes.txt", false, []⟩] ↔
      (true = true ∧ (["links.yaml"].contains "preferences.md") = true)) :=
  get_topic_slugs_mem_iff
    [⟨"alpha", true, ["preferences.md"]⟩,
     ⟨"beta", true, ["links.yaml"]⟩,
     ⟨"notes.txt", false, []⟩]
    ⟨"beta", true, ["links.yaml"]⟩ (by decide) (by decide)

/-- C1: with zero topics, `_resolve_topic` suspends with its fixed
question, and resuming with any text yields a null `topic_slug`; but the
next stage `_load_context` then evaluates `TOPICS_DIR / topic_slug` with
`topic_slug = None` and raises `TypeError` instead of treating the null
topic as nothing to do — the code contradicts both the spec's
suspend/resume round-trip property and its own comment "will fail
gracefully".  This theorem evaluates the embedded code on that failing
path for every resume text and every store state. -/
theorem scout_null_topic_load_context_raises (llm : TopicResolution)
    (resume : String) (store : TopicStore) :
    resolve_topic [] llm =
      StageOutcome.suspended
        "No topics found. Please create a topic first using the topic manager."
        (fun _ => none) ∧
    resumeValue (resolve_topic [] llm) resume = some none ∧
    load_context store none = Except.error pathTypeError :=
  ⟨rfl, rfl, rfl⟩

/-- C5: at a resolution suspension point, an affirmative reply (`yes`/`y`
after lowercasing and stripping) accepts the previously guessed slug when
one was guessed; otherwise the reply is matched against the slug list by
exact equality, substring or superstring comparison, the first matching
slug in list order wins, and with no match resolution returns `none`. -/
theorem resolve_topic_resume_spec (guessed : Option String)
    (available : List String) (response : String) :
    ((pyLowerStrip response = "yes" ∨ pyLowerStrip response = "y") →
      ∀ s, guessed = some s → s ≠ "" →
        resolve_topic_resume guessed available response = some s) ∧
    (¬((pyLowerStrip response = "yes" ∨ pyLowerStrip response = "y") ∧
        truthySlug guessed = true) →
      ∀ pre t post, available = pre ++ t :: post →
        (∀ t' ∈ pre, matchesSlug (pyLowerStrip response) t' = false) →
        matchesSlug (pyLowerStrip response) t = true →
        resolve_topic_resume guessed available response = some t) ∧
    (¬((pyLowerStrip response = "yes" ∨ pyLowerStrip response = "y") ∧
        truthySlug guessed = true) →
      (∀ t ∈ available, matchesSlug (pyLowerStrip response) t = false) →
      resolve_topic_resume guessed available response = none) := by
  have hcond : ((pyLowerStrip response == "yes" || pyLowerStrip response == "y") &&
      truthySlug guessed) = true ↔
      ((pyLowerStrip response = "yes" ∨ pyLowerStrip response = "y") ∧
        truthySlug guessed = true) := by
    simp [Bool.and_eq_true, Bool.or_eq_true, beq_iff_eq]
  refine ⟨?_, ?_, ?_⟩
  · intro hy s hg hs
    subst hg
    have : ((pyLowerStrip response == "yes" || pyLowerStrip response == "y") &&
        truthySlug (some s)) = true := by
      apply hcond.mpr
      exact ⟨hy, by simp [truthySlug, bne_iff_ne, hs]⟩
    simp [resolve_topic_resume, this]
  · intro hneg pre t post hsplit hpre ht
    have hfalse : ((pyLowerStrip response == "yes" || pyLowerStrip response == "y") &&
        truthySlug guessed) = false := by
      rcases h : ((pyLowerStrip response == "yes" || pyLowerStrip response == "y") &&
        truthySlug guessed) with _ | _
      · rfl
      · exact absurd (hcond.mp h) hneg
    rw [resolve_topic_resume]
    simp only [hfalse, Bool.false_eq_true, if_false]
    rw [hsplit]
    exact find?_split _ pre t post hpre ht
  · intro hneg hnone
    have hfalse : ((pyLowerStrip response == "yes" || pyLowerStrip response == "y") &&
        truthySlug guessed) = false := by
      rcases h : ((pyLowerStrip response == "yes" || pyLowerStrip response == "y") &&
        truthySlug guessed) with _ | _
      · rfl
      · exact absurd (hcond.mp h) hneg
    rw [resolve_topic_resume]
    simp only [hfalse, Bool.false_eq_true, if_false]
    exact List.find?_eq_none.mpr (by simpa using hnone)

/-- Witness for C5: the reply `" Metroid "` normalises to `"metroid"`,
fails to match `"ai-safety"`, and matches `"metroidvania-games"` by
substring, which is the slug returned. -/
theorem resolve_topic_resume_spec_witness :
    resolve_topic_resume (some "ai-safety")
      ["ai-safety", "metroidvania-games"] " Metroid " =
      some "metroidvania-games" :=
  (resolve_topic_resume_spec (some "ai-safety")
      ["ai-safety", "metroidvania-games"] " Metroid ").2.1
    (by decide) ["ai-safety"] "metroidvania-games" [] rfl (by decide) (by decide)

/-- Counterexample to C4 as stated: on the reply `[1, 2]` — valid JSON
that is not an object — the extraction step is not total: `json.loads`
succeeds, and `data.get("articles", [])` raises `AttributeError`, which
the `except json.JSONDecodeError` clause does not catch.  The embedded
code evaluated at this concrete reply yields the error outcome. -/
theorem extract_nonobject_json_raises :
    isRaise (search_evaluate_extract "[1, 2]".data) = true ∧
    search_evaluate_extract "[1, 2]".data =
      Except.error "AttributeError: object has no attribute get" :=
  ⟨rfl, rfl⟩

/-- C4 amended: the extraction step parses a fenced ```json block when one
is present and otherwise the whole reply; whenever that parse fails it
returns zero recommendations and the reply truncated to 500 characters,
raising nothing; whenever it yields an object it returns that object's
articles and summary, raising nothing; it raises exactly when the parsed
JSON is a non-object value. -/
theorem search_evaluate_extract_spec (content : List Char) :
    (∀ b, fencedJsonBlock content = some b →
      relevantParse content = json_loads b) ∧
    (fencedJsonBlock content = none →
      relevantParse content = json_loads content) ∧
    (relevantParse content = none →
      search_evaluate_extract content =
        Except.ok (Json.arr [], Json.str (content.take 500)) ∧
      (content.take 500).length ≤ 500) ∧
    (∀ fields, relevantParse content = some (Json.obj fields) →
      search_evaluate_extract content =
        Except.ok (dictGet fields "articles".data (Json.arr []),
          dictGet fields "summary".data (Json.str "Found articles.".data))) ∧
    (isRaise (search_evaluate_extract content) = true ↔
      ∃ v, relevantParse content = some v ∧ ∀ fields, v ≠ Json.obj fields) := by
  refine ⟨?_, ?_, ?_, ?_, ?_⟩
  · intro b hb
    simp [relevantParse, hb]
  · intro hb
    simp [relevantParse, hb]
  · intro hnone
    constructor
    · simp [search_evaluate_extract, hnone]
    · rw [List.length_take]
      exact min_le_left _ _
  · intro fields hf
    simp [search_evaluate_extract, hf]
  · cases hp : relevantParse content with
    | none =>
      simp only [search_evaluate_extract, hp, isRaise]
      constructor
      · intro h
        exact absurd h (by simp)
      · rintro ⟨v, hv, -⟩
        exact absurd hv (by simp)
    | some v =>
      cases v with
      | null =>
        simp only [search_evaluate_extract, hp, isRaise]
        exact ⟨fun _ => ⟨Json.null, rfl, fun fields h => Json.noConfusion h⟩,
          fun _ => trivial⟩
      | bool b =>
        simp only [search_evaluate_extract, hp, isRaise]
        exact ⟨fun _ => ⟨Json.bool b, rfl, fun fields h => Json.noConfusion h⟩,
          fun _ => trivial⟩
      | num raw =>
        simp only [search_evaluate_extract, hp, isRaise]
        exact ⟨fun _ => ⟨Json.num raw, rfl, fun fields h => Json.noConfusion h⟩,
          fun _ => trivial⟩
      | str s =>
        simp only [search_evaluate_extract, hp, isRaise]
        exact ⟨fun _ => ⟨Json.str s, rfl, fun fields h => Json.noConfusion h⟩,
          fun _ => trivial⟩
      | arr elems =>
        simp only [search_evaluate_extract, hp, isRaise]
        exact ⟨fun _ => ⟨Json.arr elems, rfl, fun fields h => Json.noConfusion h⟩,
          fun _ => trivial⟩
      | obj fields =>
        simp only [search_evaluate_extract, hp, isRaise]
        constructor
        · intro h
          exact absurd h (by simp)
        · rintro ⟨v, hv, hno⟩
          injection hv with hv
          exact absurd hv.symm (hno fields)

/-- Witness for C4 (amended) at the reply `hello`, which contains no JSON:
the extraction degrades to zero recommendations and the reply text. -/
theorem search_evaluate_extract_spec_witness :
    search_evaluate_extract "hello".data =
      Except.ok (Json.arr [], Json.str ("hello".data.take 500)) ∧
    ("hello".data.take 500).length ≤ 500 :=
  (search_evaluate_extract_spec "hello".data).2.2.1 rfl

/-- C8: `_save_articles` leaves the file untouched whenever it has nothing
new to write: with an empty recommendation list it passes the existing
summary through unchanged and writes nothing; with every recommended URL
already present it writes nothing and only appends the duplicates note to
the summary; and when it does write, the written content is the loaded
list followed by exactly the recommendations whose URL is new, each
stamped with today's date — a full rewrite, not an incremental append. -/
theorem save_articles_frame_spec (existing : List LinkRecord)
    (recommended : List Article) (s : String) (summary : Option String)
    (topic_slug today : String) :
    save_articles existing [] (some s) topic_slug today = (none, s) ∧
    (recommended ≠ [] →
      (∀ a ∈ recommended, urlOrEmpty a ∈ existing.map LinkRecord.url) →
      (save_articles existing recommended summary topic_slug today).1 = none ∧
      (save_articles existing recommended summary topic_slug today).2 =
        summary.getD "" ++ "\n\nNo new articles to save (duplicates filtered).") ∧
    (∀ written,
      (save_articles existing recommended summary topic_slug today).1 =
        some written →
      written = existing ++
        (recommended.filter
          (fun a => isNewUrl (existing.map LinkRecord.url) (urlOrEmpty a))).map
          (toLink today) ∧
      ∀ lnk ∈ (recommended.filter
          (fun a => isNewUrl (existing.map LinkRecord.url) (urlOrEmpty a))).map
          (toLink today), lnk.date = today) := by
  refine ⟨rfl, ?_, ?_⟩
  · intro hne hall
    have hstale : ∀ a ∈ recommended,
        isNewUrl (existing.map LinkRecord.url) (urlOrEmpty a) = false :=
      fun a ha => isNewUrl_false_of_mem _ _ (hall a ha)
    have happ := addArticles_nil_of_all_stale
      (existing.map LinkRecord.url) today recommended hstale
    rw [save_articles_unfold existing recommended summary topic_slug today hne,
      happ]
    simp
  · intro written hw
    by_cases hne : recommended = []
    · subst hne
      simp [save_articles] at hw
    · have hw' : (if (addArticles (existing.map LinkRecord.url) today
          recommended).length > 0
          then some (existing ++
            addArticles (existing.map LinkRecord.url) today recommended)
          else none) = some written := by
        rw [save_articles_unfold existing recommended summary topic_slug today
          hne] at hw
        exact hw
      by_cases hc : (addArticles (existing.map LinkRecord.url) today
          recommended).length > 0
      · rw [if_pos hc] at hw'
        injection hw' with hw''
        constructor
        · rw [← hw'', addArticles_eq_filterMap]
        · intro lnk hl
          obtain ⟨a, -, rfl⟩ := List.mem_map.mp hl
          rfl
      · rw [if_neg hc] at hw'
        exact absurd hw' (by simp)

/-- Witness for C8 at a concrete run whose single recommendation is a URL
already saved: nothing is written and the summary only gains the
duplicates note. -/
theorem save_articles_frame_spec_witness :
    (save_articles [⟨"T0", "u0", "R0", "2026-01-01"⟩]
        [⟨some "u0", some "T", some "R"⟩] (some "S") "t" "2026-10-12").1 =
      none ∧
    (save_articles [⟨"T0", "u0", "R0", "2026-01-01"⟩]
        [⟨some "u0", some "T", some "R"⟩] (some "S") "t" "2026-10-12").2 =
      (some "S").getD "" ++
        "\n\nNo new articles to save (duplicates filtered)." :=
  (save_articles_frame_spec [⟨"T0", "u0", "R0", "2026-01-01"⟩]
      [⟨some "u0", some "T", some "R"⟩] "unused" (some "S") "t"
      "2026-10-12").2.1 (by decide) (by decide)

/-- The content of the topic's saved-links file after `_save_articles`
ran: the written list when the stage wrote, otherwise the loaded list
unchanged. -/
def savedFile (existing : List LinkRecord) (recommended : List Article)
    (summary : Option String) (topic_slug today : String) : List LinkRecord :=
  ((save_articles existing recommended summary topic_slug today).1).getD existing

/-- Counterexample to C2 as stated: one recommendation list containing the
same `{url, title, reason}` record twice.  `existing_urls` is computed
once, before the loop, and never extended inside it, so both copies pass
the `url not in existing_urls` test and the URL ends up twice in the
written saved-links list — not "exactly one entry for that URL". -/
theorem save_articles_duplicate_in_one_run :
    (save_articles []
        [⟨some "https://e.com/x", some "T", some "R"⟩,
         ⟨some "https://e.com/x", some "T", some "R"⟩]
        (some "S") "t" "2026-10-12").1 =
      some [⟨"T", "https://e.com/x", "R", "2026-10-12"⟩,
            ⟨"T", "https://e.com/x", "R", "2026-10-12"⟩] ∧
    ((((save_articles []
        [⟨some "https://e.com/x", some "T", some "R"⟩,
         ⟨some "https://e.com/x", some "T", some "R"⟩]
        (some "S") "t" "2026-10-12").1).getD []).map LinkRecord.url).count
      "https://e.com/x" = 2 := by
  constructor
  · rfl
  · rfl

/-- C2 amended: saving deduplicates against the list loaded at the start
of the run — after a run, the file's URLs are pairwise distinct provided
the loaded list's URLs were distinct and the run's recommendation list
carries no duplicate non-empty URL; and re-running the stage with the same
recommendations writes nothing at all.  (Within a single run, a URL
occurring twice in the recommendation list is appended twice; membership
is only checked against the pre-run list.) -/
theorem save_articles_dedup_across_runs (existing : List LinkRecord)
    (recommended : List Article) (summary summary2 : Option String)
    (topic_slug today today2 : String)
    (hEx : (existing.map LinkRecord.url).Nodup)
    (hRec : ((recommended.map urlOrEmpty).filter (fun u => u != "")).Nodup) :
    ((savedFile existing recommended summary topic_slug today).map
        LinkRecord.url).Nodup ∧
    (save_articles (savedFile existing recommended summary topic_slug today)
        recommended summary2 topic_slug today2).1 = none := by
  by_cases hne : recommended = []
  · subst hne
    exact ⟨hEx, rfl⟩
  · have hunfold := save_articles_unfold existing recommended summary
      topic_slug today hne
    by_cases hc : (addArticles (existing.map LinkRecord.url) today
        recommended).length > 0
    · have hfile : savedFile existing recommended summary topic_slug today =
          existing ++ addArticles (existing.map LinkRecord.url) today
            recommended := by
        unfold savedFile
        rw [hunfold]
        simp [hc]
      rw [hfile]
      have hmapurl := addArticles_map_url (existing.map LinkRecord.url) today
        recommended
      constructor
      · rw [List.map_append, List.nodup_append]
        refine ⟨hEx, ?_, ?_⟩
        · rw [hmapurl]
          have hsplit : (recommended.map urlOrEmpty).filter
              (fun u => isNewUrl (existing.map LinkRecord.url) u) =
              ((recommended.map urlOrEmpty).filter (fun u => u != "")).filter
                (fun u => !((existing.map LinkRecord.url).contains u)) := by
            rw [List.filter_filter]
            apply List.filter_congr
            intro u hu
            simp [isNewUrl, Bool.and_comm]
          rw [hsplit]
          exact hRec.filter _
        · rw [List.disjoint_left]
          intro u huE huA
          rw [hmapurl] at huA
          exact ((isNewUrl_iff _ u).mp (List.mem_filter.mp huA).2).2 huE
      · rw [save_articles_unfold
          (existing ++ addArticles (existing.map LinkRecord.url) today
            recommended) recommended summary2 topic_slug today2 hne]
        have hstale : ∀ a ∈ recommended,
            isNewUrl ((existing ++ addArticles (existing.map LinkRecord.url)
              today recommended).map LinkRecord.url) (urlOrEmpty a) = false := by
          intro a ha
          rw [List.map_append]
          by_cases hu : urlOrEmpty a = ""
          · rw [hu]
            rfl
          · by_cases hnew : isNewUrl (existing.map LinkRecord.url)
                (urlOrEmpty a) = true
            · exact isNewUrl_false_of_mem _ _
                (List.mem_append_right _
                  (mem_addArticles_url _ today recommended a ha hnew))
            · have hmem : urlOrEmpty a ∈ existing.map LinkRecord.url := by
                cases hcontains : (existing.map LinkRecord.url).contains
                    (urlOrEmpty a) with
                | true => exact (contains_iff _ _).mp hcontains
                | false =>
                  refine absurd ?_ hnew
                  unfold isNewUrl
                  rw [hcontains]
                  simp [bne_iff_ne, hu]
              exact isNewUrl_false_of_mem _ _ (List.mem_append_left _ hmem)
        have happ := addArticles_nil_of_all_stale _ today2 recommended hstale
        rw [happ]
        simp
    · have hfile : savedFile existing recommended summary topic_slug today =
          existing := by
        unfold savedFile
        rw [hunfold]
        simp [hc]
      rw [hfile]
      refine ⟨hEx, ?_⟩
      rw [save_articles_unfold existing recommended summary2 topic_slug today2
        hne]
      have hlen := addArticles_length_indep (existing.map LinkRecord.url)
        today2 today recommended
      rw [show (addArticles (existing.map LinkRecord.url) today2
          recommended).length = (addArticles (existing.map LinkRecord.url)
          today recommended).length from hlen]
      simp [hc]

/-- Witness for C2 (amended) on a concrete run: a fresh URL is appended
once, the resulting file has pairwise-distinct URLs, and re-running the
stage with the same recommendation writes nothing. -/
theorem save_articles_dedup_across_runs_witness :
    ((savedFile [⟨"T0", "u0", "R0", "2026-01-01"⟩]
        [⟨some "u1", some "T1", some "R1"⟩] (some "S") "t"
        "2026-10-12").map LinkRecord.url).Nodup ∧
    (save_articles (savedFile [⟨"T0", "u0", "R0", "2026-01-01"⟩]
        [⟨some "u1", some "T1", some "R1"⟩] (some "S") "t" "2026-10-12")
        [⟨some "u1", some "T1", some "R1"⟩] (some "S2") "t"
        "2026-10-13").1 = none :=
  save_articles_dedup_across_runs [⟨"T0", "u0", "R0", "2026-01-01"⟩]
    [⟨some "u1", some "T1", some "R1"⟩] (some "S") (some "S2") "t"
    "2026-10-12" "2026-10-13" (by decide) (by decide)

/-- Counterexample to C9 as stated: with recommendations `[{title: "A"}
(no url), {url: "u", title: "B"}]` against an empty file, only `u` is
saved — but the summary's saved-URLs listing is computed from the raw
`a.get("url")` fields sliced to `saved_count`, so it lists the url-less
article (rendered `None`) and omits `u`: the url-less article is not
"never listed in the summary of saved URLs". -/
theorem save_articles_summary_lists_missing_url :
    (save_articles [] [⟨none, some "A", some "RA"⟩,
        ⟨some "u", some "B", some "RB"⟩] (some "S") "t" "2026-10-12") =
      (some [⟨"B", "u", "RB", "2026-10-12"⟩],
       "S\n\nSaved to t:\n  â†’ None") := by
  rfl

/-- C9 amended: a recommended article whose url field is missing or empty
is never appended to the saved-links list (every appended record has a
non-empty URL absent from the loaded list) and never counted — the
appended records' URLs are exactly the non-empty unseen recommendation
URLs; however the summary's saved-URLs pool does not exclude such
articles: a recommendation with a missing url field always appears in the
pool (and can therefore occupy a listed slot, displacing a genuinely saved
URL). -/
theorem save_articles_skips_missing_url_spec (existing : List LinkRecord)
    (recommended : List Article) (today : String) :
    (∀ lnk ∈ addArticles (existing.map LinkRecord.url) today recommended,
        lnk.url ≠ "" ∧ lnk.url ∉ existing.map LinkRecord.url) ∧
    ((addArticles (existing.map LinkRecord.url) today recommended).map
        LinkRecord.url =
      (recommended.map urlOrEmpty).filter
        (fun u => isNewUrl (existing.map LinkRecord.url) u)) ∧
    (∀ a ∈ recommended, a.url = none →
        (none : Option String) ∈
          summaryPool (existing.map LinkRecord.url) recommended) := by
  refine ⟨?_, addArticles_map_url _ _ _, ?_⟩
  · intro lnk hl
    rw [addArticles_eq_filterMap] at hl
    obtain ⟨a, ha, rfl⟩ := List.mem_map.mp hl
    exact (isNewUrl_iff _ _).mp (List.mem_filter.mp ha).2
  · intro a ha hnone
    unfold summaryPool
    exact List.mem_map.mpr
      ⟨a, List.mem_filter.mpr ⟨ha, by rw [hnone]; rfl⟩, hnone⟩

/-- Witness for C9 (amended): a url-less recommendation lands in the
summary pool. -/
theorem save_articles_skips_missing_url_spec_witness :
    (none : Option String) ∈ summaryPool [] [⟨none, some "A", none⟩] :=
  (save_articles_skips_missing_url_spec [] [⟨none, some "A", none⟩]
      "2026-10-12").2.2 ⟨none, some "A", none⟩ (by decide) rfl

/-- C6: every handoff operation maintains the handoff invariant.  A
router-issued handoff makes the chosen specialist active and sets the
context to exactly the payload — `{task}` for the profile manager
(`topic_manager`), `{task, topic_slug}` for the content scout; a
router-return handoff makes the router (`supervisor`) active with an
empty context — both for the `handoff_to_supervisor` tool and for the
content scout's direct handback; in every case the new active agent is
one of the three worker names and a synthetic transfer/completion note
is appended last. -/
theorem handoff_protocol_spec (task topic_slug summary : String)
    (stateMessages : List Msg) (tool_call_id : String) :
    ((handoff_to_topics task stateMessages tool_call_id).update.active_agent =
        "topic_manager" ∧
      (handoff_to_topics task stateMessages tool_call_id).update.topic_context =
        [("task", task)] ∧
      (handoff_to_topics task stateMessages
          tool_call_id).update.messages.getLast? =
        some (Msg.tool ("Transferring to TopicManager: " ++ task)
          tool_call_id)) ∧
    ((handoff_to_scout task topic_slug stateMessages
          tool_call_id).update.active_agent = "content_scout" ∧
      (handoff_to_scout task topic_slug stateMessages
          tool_call_id).update.topic_context =
        [("task", task), ("topic_slug", topic_slug)] ∧
      (handoff_to_scout task topic_slug stateMessages
          tool_call_id).update.messages.getLast? =
        some (Msg.tool ("Transferring to ContentScout: " ++ task ++
          " (topic: " ++ topic_slug ++ ")") tool_call_id)) ∧
    ((handoff_to_supervisor summary stateMessages
          tool_call_id).update.active_agent = "supervisor" ∧
      (handoff_to_supervisor summary stateMessages
          tool_call_id).update.topic_context = [] ∧
      (handoff_to_supervisor summary stateMessages
          tool_call_id).update.messages.getLast? =
        some (Msg.tool ("TopicManager completed: " ++ summary)
          tool_call_id)) ∧
    ((content_scout_handback summary).active_agent = "supervisor" ∧
      (content_scout_handback summary).topic_context = [] ∧
      (content_scout_handback summary).messages = [Msg.ai summary]) ∧
    ((handoff_to_topics task stateMessages
        tool_call_id).update.active_agent ∈ workerNames ∧
      (handoff_to_scout task topic_slug stateMessages
        tool_call_id).update.active_agent ∈ workerNames ∧
      (handoff_to_supervisor summary stateMessages
        tool_call_id).update.active_agent ∈ workerNames ∧
      (content_scout_handback summary).active_agent ∈ workerNames) :=
  ⟨⟨rfl, rfl, withTransfer_getLast _ _⟩,
   ⟨rfl, rfl, withTransfer_getLast _ _⟩,
   ⟨rfl, rfl, withTransfer_getLast _ _⟩,
   ⟨rfl, rfl, rfl⟩,
   ⟨(by decide : ("topic_manager" : String) ∈ workerNames),
    (by decide : ("content_scout" : String) ∈ workerNames),
    (by decide : ("supervisor" : String) ∈ workerNames),
    (by decide : ("supervisor" : String) ∈ workerNames)⟩⟩

/-- C10: across any list of queries, the output of the web-search tool
mentions each result URL at most once — the URLs of its result entries
are pairwise distinct even when queries return overlapping results — and
a query whose search call fails contributes exactly one inline error
line while the remaining queries are still processed with the same seen
set. -/
theorem tavily_search_dedup_spec (netloc : String → String)
    (search : String → Except String (List SearchResult))
    (queries qs : List String) (seen : List String) (q e : String) :
    (resultUrls (tavily_lines netloc search [] queries)).Nodup ∧
    (search q = Except.error e →
      tavily_lines netloc search seen (q :: qs) =
        OutLine.failure q e :: tavily_lines netloc search seen qs) := by
  constructor
  · exact (tavily_lines_fresh netloc search queries []).1
  · intro hs
    simp [tavily_lines, hs]

/-- Witness for C10 at a concrete failing query: the `bad` query yields
exactly one inline error line and the following query is still
processed. -/
theorem tavily_search_dedup_spec_witness :
    tavily_lines (fun _ => "")
      (fun query => if query = "bad" then Except.error "boom" else Except.ok [])
      [] ("bad" :: ["good"]) =
      OutLine.failure "bad" "boom" ::
        tavily_lines (fun _ => "")
          (fun query => if query = "bad" then Except.error "boom"
            else Except.ok [])
          [] ["good"] :=
  (tavily_search_dedup_spec (fun _ => "")
      (fun query => if query = "bad" then Except.error "boom" else Except.ok [])
      ["good"] ["good"] [] "bad" "boom").2 rfl
